import Mathlib

/-!
Verification of `src/mlflow_export_import/model/export_model.py`.

The file shallowly embeds the `ModelExporter` class: its constructor
(`__init__` together with `_normalize_stages`), the outer wrapper
`export_model`, and the worker `_export_model` with its per-version loop.
External collaborators (the MLflow registry/tracking client, the run
exporter, and the filesystem) are modelled as an explicit environment of
`Except`-valued calls, so that failure injection is expressible; the
exporter's own control flow (filtering, manifest accumulation, exception
handling, sorting, counter computation) is translated statement by
statement from the Python source.

Python strings are modelled as `String`, but every string operation the
source uses (`str.lower`, `str.split`, `str.replace`, `os.path.join`,
`in`-substring tests, and `<` comparison used by `list.sort`) is
re-implemented structurally over `List Char` so that all definitions are
kernel-executable; each helper documents the Python behaviour it embeds.
-/

set_option maxHeartbeats 1000000

deriving instance DecidableEq for Except

namespace MlflowExportImport

/-! ## String helpers (embeddings of the Python string operations used) -/

/-- Embeds Python `str.lower` (ASCII case folding; all strings handled by
this module are ASCII). -/
def pyLower (s : String) : String :=
  String.mk (s.data.map Char.toLower)

/-- Worker for `pySplitComma`: scan the characters, cutting at each `,`.
`acc` holds the (reversed) characters of the current field. -/
def splitCommaAux : List Char → List Char → List String
  | [], acc => [String.mk acc.reverse]
  | c :: rest, acc =>
    if c = ',' then String.mk acc.reverse :: splitCommaAux rest []
    else splitCommaAux rest (c :: acc)

/-- Embeds Python `s.split(",")`: split at every comma, keeping empty
fields, so `"".split(",") == [""]` and `"a,,b".split(",") == ["a","","b"]`. -/
def pySplitComma (s : String) : List String :=
  splitCommaAux s.data []

/-- Embeds Python string `<=` on `List Char`: lexicographic comparison by
code point. -/
def listCharLE : List Char → List Char → Bool
  | [], _ => true
  | _ :: _, [] => false
  | a :: as, b :: bs =>
    if a.toNat < b.toNat then true
    else if b.toNat < a.toNat then false
    else listCharLE as bs

/-- Embeds Python string `<=` (code-point lexicographic order), the
comparison `list.sort(key=...)` sorts by. -/
def pyStrLE (a b : String) : Bool :=
  listCharLE a.data b.data

/-- Embeds the Python substring test `needle in hay` on `List Char`:
`needle` matches at the head or somewhere in the tail. -/
def hasPattern (needle : List Char) : List Char → Bool
  | [] => needle.isEmpty
  | c :: rest => needle.isPrefixOf (c :: rest) || hasPattern needle rest

/-- Embeds the Python substring test `needle in hay`. -/
def strInStr (needle hay : String) : Bool :=
  hasPattern needle.data hay.data

/-- The characters of the pattern `"dbfs:"` of the `replace` call on
line 66 of the source. -/
def DBFS_PAT : List Char := ['d', 'b', 'f', 's', ':']

/-- The characters of the replacement `"/dbfs"` of the same call. -/
def DBFS_REP : List Char := ['/', 'd', 'b', 'f', 's']

/-- Embeds Python `s.replace("dbfs:", "/dbfs")`: scan left to right; at
each position, if the next five characters are `dbfs:`, emit `/dbfs` and
skip them (occurrences do not overlap), otherwise copy one character.
A tail shorter than the pattern is copied verbatim. -/
def replaceDbfs : List Char → List Char
  | c1 :: c2 :: c3 :: c4 :: c5 :: rest =>
    if c1 = 'd' ∧ c2 = 'b' ∧ c3 = 'f' ∧ c4 = 's' ∧ c5 = ':' then
      DBFS_REP ++ replaceDbfs rest
    else
      c1 :: replaceDbfs (c2 :: c3 :: c4 :: c5 :: rest)
  | [] => []
  | [c1] => [c1]
  | [c1, c2] => [c1, c2]
  | [c1, c2, c3] => [c1, c2, c3]
  | [c1, c2, c3, c4] => [c1, c2, c3, c4]

/-- String wrapper of `replaceDbfs`: Python `s.replace("dbfs:", "/dbfs")`. -/
def pyReplaceDbfs (s : String) : String :=
  String.mk (replaceDbfs s.data)

/-- Embeds POSIX `os.path.join(a, b)` for two components: if `b` starts
with the separator it wins outright; else it is appended to `a`, with a
separator inserted unless `a` is empty or already ends in one. -/
def pyJoin (a b : String) : String :=
  if b.data.head? = some '/' then b
  else if a.data = [] ∨ a.data.getLast? = some '/' then a ++ b
  else a ++ "/" ++ b

/-- Lines 65–66 of the source: the per-run output path
`os.path.join(output_dir, run_id).replace("dbfs:", "/dbfs")`. -/
def opath_of (output_dir run_id : String) : String :=
  pyReplaceDbfs (pyJoin output_dir run_id)

/-! ## Data model -/

/-- One model version as returned by
`mlflow_client.search_model_versions`, with the fields the source
reads (`version`, `current_stage`, `run_id`, `description`, `tags`). -/
structure ModelVersion where
  version : String
  current_stage : String
  run_id : String
  description : String
  tags : List (String × String)
deriving DecidableEq, Repr

/-- The `run.info` fields the source reads from `mlflow_client.get_run`. -/
structure RunInfo where
  artifact_uri : String
  experiment_id : String
deriving DecidableEq, Repr

/-- A run as returned by `mlflow_client.get_run`. -/
structure Run where
  info : RunInfo
deriving DecidableEq, Repr

/-- An experiment as returned by `mlflow.get_experiment`; only `name`
is read. -/
structure Experiment where
  name : String
deriving DecidableEq, Repr

/-- The exception kinds distinguished by the source: the catch clause on
line 80 matches exactly `mlflow.exceptions.RestException`;
`MlflowExportImportException` is raised by the constructor; everything
else is some other Python exception. `msg` is the exception's `str(e)`. -/
inductive Exn where
  | restException (msg : String)
  | mlflowExportImportException (msg : String)
  | otherException (msg : String)
deriving DecidableEq, Repr

/-- The external collaborators of `_export_model` (registry/tracking
client, run exporter, filesystem), each modelled as an `Except`-valued
call so that any of them can be made to raise. -/
structure Env where
  /-- `mlflow_client.search_model_versions(f"name=...")`: the registry
  response for the model, or a raised exception. -/
  search_model_versions : Except Exn (List ModelVersion)
  /-- `run_exporter.export_run(run_id, opath)`. -/
  export_run : String → String → Except Exn Unit
  /-- `mlflow_client.get_run(run_id)`. -/
  get_run : String → Except Exn Run
  /-- `mlflow.get_experiment(experiment_id)`. -/
  get_experiment : String → Except Exn Experiment
  /-- `mlflow_client.get_registered_model(model_name)` followed by
  `to_proto`/`message_to_json`/`json.loads`: the model's canonical
  metadata document, kept abstract as a string. -/
  get_registered_model : Except Exn String
  /-- `fs.mkdirs(output_dir)`. -/
  mkdirs : Except Exn Unit
  /-- `utils.write_json_file(fs, path, model)`. -/
  write_json_file : Except Exn Unit

/-- One manifest entry (line 67 of the source):
`{"version": .., "stage": .., "run_id": .., "description": .., "tags": ..}`. -/
structure ModelVersionRecord where
  version : String
  stage : String
  run_id : String
  description : String
  tags : List (String × String)
deriving DecidableEq, Repr

/-- Builds the manifest record of line 67 from a registry version. -/
def mkRecord (vr : ModelVersion) : ModelVersionRecord :=
  { version := vr.version
    stage := vr.current_stage
    run_id := vr.run_id
    description := vr.description
    tags := vr.tags }

/-- One entry of `output_versions` (lines 74–78): `dict(vr)` plus the
derived `_run_artifact_uri` and `_experiment_name` fields. -/
structure ExportedVersion where
  vr : ModelVersion
  run_artifact_uri : String
  experiment_name : String
deriving DecidableEq, Repr

/-- The `export_info` counters of lines 92–100 (the timestamp/tool
metadata of `utils.create_export_info` carries no claim content and is
omitted). -/
structure ExportInfo where
  num_target_stages : Nat
  num_target_versions : Nat
  num_src_versions : Nat
  num_dst_versions : Nat
deriving DecidableEq, Repr

/-- The document written to `{output_dir}/model.json` (lines 101–106):
registered-model metadata, the sorted `latest_versions` sequence, and the
counters. -/
structure OutputDoc where
  registered_model : String
  latest_versions : List ExportedVersion
  export_info : ExportInfo
deriving DecidableEq, Repr

/-- The mutable locals of the per-version loop, plus the warning and
traceback lines printed by the two arms of the `except` clause (the
loop's only other observable effects). -/
structure LoopState where
  manifest : List ModelVersionRecord
  output_versions : List ExportedVersion
  exported_versions : Nat
  warnings : List String
  tracebacks : List String
deriving DecidableEq, Repr

/-- The loop state before the first iteration (lines 54–58). -/
def initState : LoopState :=
  { manifest := []
    output_versions := []
    exported_versions := 0
    warnings := []
    tracebacks := [] }

/-! ## Constructor -/

/-- The `stages` argument of `ModelExporter.__init__`: Python permits
`None`, a comma-separated string, or a list of strings. -/
inductive StagesArg where
  | noStages
  | str (s : String)
  | list (l : List String)
deriving DecidableEq, Repr

/-- Embeds `ModelExporter._normalize_stages` (lines 110–120): `None`
becomes `[]`, a string is split on commas, and every entry is
lower-cased. (The loop that warns about non-canonical stage names only
prints and is omitted.) -/
def normalize_stages : StagesArg → List String
  | .noStages => []
  | .str s => (pySplitComma s).map pyLower
  | .list l => l.map pyLower

/-- The configuration state a successfully constructed `ModelExporter`
holds (`self.stages`, `self.versions`, `self.export_run`). -/
structure ExporterCfg where
  stages : List String
  versions : List String
  export_run : Bool
deriving DecidableEq, Repr

/-- Embeds `ModelExporter.__init__` (lines 18–33): normalize the stage
filter, default the version filter to `[]` when falsy, and raise
`MlflowExportImportException` when both filters are non-empty. -/
def ModelExporter.init (stages : StagesArg) (versions : Option (List String))
    (export_run : Bool) : Except Exn ExporterCfg :=
  let st := normalize_stages stages
  let vs := versions.getD []
  if 0 < st.length ∧ 0 < vs.length then
    .error (.mlflowExportImportException "Both stages and versions cannot be set")
  else
    .ok { stages := st, versions := vs, export_run := export_run }

/-! ## The per-version loop -/

/-- The error pattern matched on line 81 of the source. -/
def RESOURCE_MSG : String := "RESOURCE_DOES_NOT_EXIST: Run"

/-- The warning line printed on line 82 of the source. -/
def warn_msg (version msg : String) : String :=
  "WARNING: Run for version " ++ version ++ " does not exist. " ++ msg

/-- The body of the `try` block on lines 70–79: optionally export the
run, fetch the run, fetch its experiment, and build the
`output_versions` entry. The first raised exception aborts the block. -/
def tryExportVersion (cfg : ExporterCfg) (env : Env) (vr : ModelVersion)
    (opath : String) : Except Exn ExportedVersion :=
  match (if cfg.export_run then env.export_run vr.run_id opath else .ok ()) with
  | .error e => .error e
  | .ok _ =>
    match env.get_run vr.run_id with
    | .error e => .error e
    | .ok run =>
      match env.get_experiment run.info.experiment_id with
      | .error e => .error e
      | .ok experiment =>
        .ok { vr := vr
              run_artifact_uri := run.info.artifact_uri
              experiment_name := experiment.name }

/-- One iteration of the `for vr in versions` loop (lines 59–85): apply
the stage filter, then the version filter; compute the output path;
append the manifest record; run the `try` block; recover from a
`RestException` (warning when the message contains
`RESOURCE_DOES_NOT_EXIST: Run`, traceback otherwise); let any other
exception propagate. -/
def process_version (cfg : ExporterCfg) (env : Env) (output_dir : String)
    (st : LoopState) (vr : ModelVersion) : Except Exn LoopState :=
  if 0 < cfg.stages.length ∧ pyLower vr.current_stage ∉ cfg.stages then
    .ok st
  else if 0 < cfg.versions.length ∧ vr.version ∉ cfg.versions then
    .ok st
  else
    let opath := opath_of output_dir vr.run_id
    let st1 : LoopState := { st with manifest := st.manifest ++ [mkRecord vr] }
    match tryExportVersion cfg env vr opath with
    | .ok ev =>
      .ok { st1 with
            output_versions := st1.output_versions ++ [ev]
            exported_versions := st1.exported_versions + 1 }
    | .error (.restException msg) =>
      if strInStr RESOURCE_MSG msg then
        .ok { st1 with warnings := st1.warnings ++ [warn_msg vr.version msg] }
      else
        .ok { st1 with tracebacks := st1.tracebacks ++ [msg] }
    | .error e => .error e

/-- The whole `for vr in versions` loop: iterate `process_version`,
stopping at the first uncaught exception. -/
def export_loop (cfg : ExporterCfg) (env : Env) (output_dir : String) :
    LoopState → List ModelVersion → Except Exn LoopState
  | st, [] => .ok st
  | st, vr :: rest =>
    match process_version cfg env output_dir st vr with
    | .ok st2 => export_loop cfg env output_dir st2 rest
    | .error e => .error e

/-- The sort key relation of line 86: Python string `<=` on the
`version` field. -/
def versionLE (a b : ExportedVersion) : Prop :=
  pyStrLE a.vr.version b.vr.version = true

instance : DecidableRel versionLE :=
  fun a b => inferInstanceAs (Decidable (_ = true))

/-- Embeds `ModelExporter._export_model` (lines 50–107): make the output
directory, query the registry, run the per-version loop, sort the output
sequence by version string (Python's `list.sort(key=...)` is a stable
sort by that key, as is `List.insertionSort`), fetch the registered
model, assemble the output document with its counters, and write it.
The Lean value returns the manifest (the Python return value) together
with the written document, the call's other observable result. -/
def _export_model (cfg : ExporterCfg) (env : Env)
    (model_name output_dir : String) :
    Except Exn (List ModelVersionRecord × OutputDoc) :=
  match env.mkdirs with
  | .error e => .error e
  | .ok _ =>
    match env.search_model_versions with
    | .error e => .error e
    | .ok versions =>
      match export_loop cfg env output_dir initState versions with
      | .error e => .error e
      | .ok st =>
        let sorted_versions := List.insertionSort versionLE st.output_versions
        match env.get_registered_model with
        | .error e => .error e
        | .ok model_meta =>
          let doc : OutputDoc :=
            { registered_model := model_meta
              latest_versions := sorted_versions
              export_info :=
                { num_target_stages := cfg.stages.length
                  num_target_versions := cfg.versions.length
                  num_src_versions := versions.length
                  num_dst_versions := sorted_versions.length } }
          match env.write_json_file with
          | .error e => .error e
          | .ok _ => .ok (st.manifest, doc)

/-- Embeds `ModelExporter.export_model` (lines 36–47): run
`_export_model`, catch any exception, and return the success flag with
the model name. -/
def export_model (cfg : ExporterCfg) (env : Env)
    (model_name output_dir : String) : Bool × String :=
  match _export_model cfg env model_name output_dir with
  | .ok _ => (true, model_name)
  | .error _ => (false, model_name)

/-! ## Order facts about the sort comparison -/

theorem listCharLE_trans : ∀ x y z : List Char,
    listCharLE x y = true → listCharLE y z = true → listCharLE x z = true
  | [], _, _ => by intro _ _; rfl
  | _ :: _, [], _ => by intro h _; exact absurd h (by simp [listCharLE])
  | _ :: _, _ :: _, [] => by intro _ h; exact absurd h (by simp [listCharLE])
  | a :: as, b :: bs, c :: cs => by
    intro h1 h2
    simp only [listCharLE] at h1 h2 ⊢
    split_ifs at h1 h2 ⊢ <;> first
      | rfl
      | omega
      | exact listCharLE_trans as bs cs h1 h2

theorem listCharLE_total : ∀ x y : List Char,
    listCharLE x y = true ∨ listCharLE y x = true
  | [], _ => Or.inl rfl
  | _ :: _, [] => Or.inr rfl
  | a :: as, b :: bs => by
    simp only [listCharLE]
    split_ifs <;> first
      | exact Or.inl rfl
      | exact Or.inr rfl
      | exact listCharLE_total as bs

instance : IsTrans ExportedVersion versionLE :=
  ⟨fun _ _ _ h1 h2 => listCharLE_trans _ _ _ h1 h2⟩

instance : IsTotal ExportedVersion versionLE :=
  ⟨fun a b => listCharLE_total a.vr.version.data b.vr.version.data⟩

/-! ## Case lemmas about one loop iteration -/

/-- A version passes both filters of lines 60–63: whenever a filter is
active, the version is in it. -/
def Selected (cfg : ExporterCfg) (vr : ModelVersion) : Prop :=
  (0 < cfg.stages.length → pyLower vr.current_stage ∈ cfg.stages) ∧
  (0 < cfg.versions.length → vr.version ∈ cfg.versions)

instance (cfg : ExporterCfg) (vr : ModelVersion) : Decidable (Selected cfg vr) :=
  inferInstanceAs (Decidable (And _ _))

/-- The `try` block only ever produces the output entry built from the
version it was given. -/
theorem tryExportVersion_ok_vr (cfg : ExporterCfg) (env : Env)
    (vr : ModelVersion) (opath : String) (ev : ExportedVersion)
    (h : tryExportVersion cfg env vr opath = .ok ev) : ev.vr = vr := by
  unfold tryExportVersion at h
  split at h
  · exact absurd h (by simp)
  · split at h
    · exact absurd h (by simp)
    · split at h
      · exact absurd h (by simp)
      · rw [← Except.ok.inj h]

/-- A version rejected by an active stage filter is skipped outright:
the loop state is untouched. -/
theorem process_version_skip_stage (cfg : ExporterCfg) (env : Env)
    (output_dir : String) (st : LoopState) (vr : ModelVersion)
    (hs : 0 < cfg.stages.length) (hmem : pyLower vr.current_stage ∉ cfg.stages) :
    process_version cfg env output_dir st vr = .ok st := by
  unfold process_version
  rw [if_pos ⟨hs, hmem⟩]

/-- A selected version is never skipped: `process_version` reaches the
`try` block, whose outcome decides the new state. -/
theorem process_version_selected (cfg : ExporterCfg) (env : Env)
    (output_dir : String) (st : LoopState) (vr : ModelVersion)
    (hsel : Selected cfg vr) :
    process_version cfg env output_dir st vr =
      (let st1 : LoopState := { st with manifest := st.manifest ++ [mkRecord vr] }
       match tryExportVersion cfg env vr (opath_of output_dir vr.run_id) with
       | .ok ev =>
         .ok { st1 with
               output_versions := st1.output_versions ++ [ev]
               exported_versions := st1.exported_versions + 1 }
       | .error (.restException msg) =>
         if strInStr RESOURCE_MSG msg then
           .ok { st1 with warnings := st1.warnings ++ [warn_msg vr.version msg] }
         else
           .ok { st1 with tracebacks := st1.tracebacks ++ [msg] }
       | .error e => .error e) := by
  unfold process_version
  rw [if_neg (by rintro ⟨h1, h2⟩; exact h2 (hsel.1 h1)),
      if_neg (by rintro ⟨h1, h2⟩; exact h2 (hsel.2 h1))]

/-- Characterization of a successful loop iteration: either the version
was filtered out and the state is unchanged, or it was selected, its
record was appended to the manifest, and the output sequence either
gained exactly the entry built from this version or stayed as it was. -/
theorem process_version_ok (cfg : ExporterCfg) (env : Env)
    (output_dir : String) (st : LoopState) (vr : ModelVersion)
    (st2 : LoopState)
    (h : process_version cfg env output_dir st vr = .ok st2) :
    st2 = st ∨
      (Selected cfg vr ∧
       st2.manifest = st.manifest ++ [mkRecord vr] ∧
       (st2.output_versions = st.output_versions ∨
        ∃ ev, ev.vr = vr ∧
          st2.output_versions = st.output_versions ++ [ev])) := by
  unfold process_version at h
  split at h
  · exact Or.inl (Except.ok.inj h).symm
  · split at h
    · exact Or.inl (Except.ok.inj h).symm
    · rename_i h1 h2
      rw [not_and_or, not_not] at h1 h2
      have hsel : Selected cfg vr := by
        constructor
        · intro hs
          rcases h1 with h1 | h1
          · omega
          · exact h1
        · intro hv
          rcases h2 with h2 | h2
          · omega
          · exact h2
      refine Or.inr ⟨hsel, ?_⟩
      dsimp only at h
      split at h
      · rename_i ev heq
        rw [← Except.ok.inj h]
        exact ⟨rfl, Or.inr ⟨ev, tryExportVersion_ok_vr cfg env vr _ ev heq, rfl⟩⟩
      · split at h <;> rw [← Except.ok.inj h] <;> exact ⟨rfl, Or.inl rfl⟩
      · exact absurd h (by simp)

/-! ## Loop invariant and inversion of a successful export -/

/-- Invariant of the whole loop: a successful pass over `vs` only ever
appends to the output sequence, appends at most one entry per input
version, and every appended entry was built from a version of `vs` that
passed both filters. -/
theorem export_loop_output (cfg : ExporterCfg) (env : Env)
    (output_dir : String) :
    ∀ (vs : List ModelVersion) (st st2 : LoopState),
      export_loop cfg env output_dir st vs = .ok st2 →
      ∃ new, st2.output_versions = st.output_versions ++ new ∧
        new.length ≤ vs.length ∧
        ∀ ev ∈ new, ev.vr ∈ vs ∧ Selected cfg ev.vr
  | [], st, st2, h => by
    refine ⟨[], ?_, by simp, by simp⟩
    rw [← Except.ok.inj h]
    simp
  | vr :: rest, st, st2, h => by
    rw [export_loop] at h
    split at h
    · rename_i stm heq
      obtain ⟨new, hout, hlen, hmem⟩ :=
        export_loop_output cfg env output_dir rest stm st2 h
      rcases process_version_ok cfg env output_dir st vr stm heq with
        hsame | ⟨hsel, _, hone | ⟨ev, hev, hone⟩⟩
      · subst hsame
        exact ⟨new, hout, by simpa using Nat.le_succ_of_le hlen,
          fun x hx => ⟨List.mem_cons_of_mem _ (hmem x hx).1, (hmem x hx).2⟩⟩
      · rw [hone] at hout
        exact ⟨new, hout, by simpa using Nat.le_succ_of_le hlen,
          fun x hx => ⟨List.mem_cons_of_mem _ (hmem x hx).1, (hmem x hx).2⟩⟩
      · rw [hone, List.append_assoc] at hout
        refine ⟨[ev] ++ new, hout, by simpa using hlen, ?_⟩
        intro x hx
        rcases List.mem_append.mp hx with hx | hx
        · rw [List.mem_singleton.mp hx, hev]
          exact ⟨List.mem_cons_self vr rest, hsel⟩
        · exact ⟨List.mem_cons_of_mem _ (hmem x hx).1, (hmem x hx).2⟩
    · exact absurd h (by simp)

/-- Inversion of a successful `_export_model` call: it exposes the
registry response, the final loop state, and how the document's
`latest_versions` sequence and counters were assembled from them. -/
theorem _export_model_ok (cfg : ExporterCfg) (env : Env)
    (model_name output_dir : String) (m : List ModelVersionRecord)
    (doc : OutputDoc)
    (h : _export_model cfg env model_name output_dir = .ok (m, doc)) :
    ∃ versions st,
      env.search_model_versions = .ok versions ∧
      export_loop cfg env output_dir initState versions = .ok st ∧
      m = st.manifest ∧
      doc.latest_versions = List.insertionSort versionLE st.output_versions ∧
      doc.export_info.num_target_stages = cfg.stages.length ∧
      doc.export_info.num_target_versions = cfg.versions.length ∧
      doc.export_info.num_src_versions = versions.length ∧
      doc.export_info.num_dst_versions = doc.latest_versions.length := by
  unfold _export_model at h
  split at h
  · exact absurd h (by simp)
  · split at h
    · exact absurd h (by simp)
    · rename_i versions hsearch
      dsimp only at h
      split at h
      · exact absurd h (by simp)
      · rename_i st hloop
        split at h
        · exact absurd h (by simp)
        · split at h
          · exact absurd h (by simp)
          · refine ⟨versions, st, hsearch, hloop, ?_⟩
            injection h with h2
            injection h2 with hm hdoc
            subst hdoc
            exact ⟨hm.symm, rfl, rfl, rfl, rfl, rfl⟩

/-! ## Behaviour of the `dbfs:` rewrite -/

/-- An occurrence of the pattern at the head of the string is replaced,
and scanning resumes after it. -/
theorem replaceDbfs_head (w : List Char) :
    replaceDbfs (DBFS_PAT ++ w) = DBFS_REP ++ replaceDbfs w := by
  show replaceDbfs ('d' :: 'b' :: 'f' :: 's' :: ':' :: w) = _
  rw [replaceDbfs]
  simp

/-- When the pattern does not match at the head, the scan copies one
character and continues. -/
theorem replaceDbfs_skip (c : Char) (s : List Char)
    (h : ¬ DBFS_PAT <+: (c :: s)) :
    replaceDbfs (c :: s) = c :: replaceDbfs s := by
  match s with
  | [] => rfl
  | [c2] => rfl
  | [c2, c3] => rfl
  | [c2, c3, c4] => rfl
  | c2 :: c3 :: c4 :: c5 :: rest =>
    rw [replaceDbfs]
    rw [if_neg]
    rintro ⟨h1, h2, h3, h4, h5⟩
    subst h1; subst h2; subst h3; subst h4; subst h5
    exact h ⟨rest, rfl⟩

/-- If the pattern does not occur in the non-empty block `x`, it cannot
match at position 0 of `x ++ dbfs: ++ y` either: the pattern `dbfs:` has
no self-overlap, so a match straddling the boundary is impossible. -/
theorem pat_no_match_mid (x : List Char) (y : List Char)
    (hx : ¬ DBFS_PAT <:+: x) (hne : x ≠ []) :
    ¬ DBFS_PAT <+: (x ++ (DBFS_PAT ++ y)) := by
  intro h
  match x, hne with
  | [a1], _ =>
    simp only [ DBFS_PAT, List.cons_append, List.nil_append,
      List.cons_prefix_cons] at h
    exact absurd h.2.1 (by decide)
  | [a1, a2], _ =>
    simp only [ DBFS_PAT, List.cons_append, List.nil_append,
      List.cons_prefix_cons] at h
    exact absurd h.2.2.1 (by decide)
  | [a1, a2, a3], _ =>
    simp only [ DBFS_PAT, List.cons_append, List.nil_append,
      List.cons_prefix_cons] at h
    exact absurd h.2.2.2.1 (by decide)
  | [a1, a2, a3, a4], _ =>
    simp only [ DBFS_PAT, List.cons_append, List.nil_append,
      List.cons_prefix_cons] at h
    exact absurd h.2.2.2.2.1 (by decide)
  | a1 :: a2 :: a3 :: a4 :: a5 :: x6, _ =>
    simp only [ DBFS_PAT, List.cons_append, List.nil_append,
      List.cons_prefix_cons] at h
    obtain ⟨e1, e2, e3, e4, e5, -⟩ := h
    subst e1; subst e2; subst e3; subst e4; subst e5
    exact hx ⟨[], x6, by simp [ DBFS_PAT]⟩

/-- The first occurrence of `dbfs:` is replaced wherever it sits, not
only at the front: if the pattern does not occur in `x`, the rewrite of
`x ++ dbfs: ++ y` keeps `x`, replaces this occurrence, and continues
scanning `y`. -/
theorem replaceDbfs_mid : ∀ (x y : List Char), ¬ DBFS_PAT <:+: x →
    replaceDbfs (x ++ DBFS_PAT ++ y) = x ++ DBFS_REP ++ replaceDbfs y
  | [], y, _ => by simpa using replaceDbfs_head y
  | c :: x1, y, hx => by
    have hx1 : ¬ DBFS_PAT <:+: x1 := by
      intro hinf
      obtain ⟨s, t, hst⟩ := hinf
      exact hx ⟨c :: s, t, by simp [hst]⟩
    have hnp : ¬ DBFS_PAT <+: ((c :: x1) ++ (DBFS_PAT ++ y)) :=
      pat_no_match_mid (c :: x1) y hx (by simp)
    have hskip := replaceDbfs_skip c (x1 ++ (DBFS_PAT ++ y)) (by simpa using hnp)
    calc replaceDbfs ((c :: x1) ++ DBFS_PAT ++ y)
        = c :: replaceDbfs (x1 ++ DBFS_PAT ++ y) := by simpa using hskip
      _ = c :: (x1 ++ DBFS_REP ++ replaceDbfs y) := by
          rw [replaceDbfs_mid x1 y hx1]
      _ = (c :: x1) ++ DBFS_REP ++ replaceDbfs y := by simp

/-! ## Concrete fixtures used by scenario conjuncts and witnesses -/

def mv1 : ModelVersion := ⟨"1", "Production", "r1", "d1", []⟩

def mv2 : ModelVersion := ⟨"2", "Archived", "r2", "d2", []⟩

def mv3 : ModelVersion := ⟨"3", "None", "r3", "d3", []⟩

/-- Configuration with no stage filter and no version filter. -/
def cfg0 : ExporterCfg := ⟨[], [], true⟩

/-- Configuration with the stage filter `["production"]`. -/
def cfgProd : ExporterCfg := ⟨["production"], [], true⟩

/-- A registry in which every call succeeds and three versions exist. -/
def envOk : Env :=
  { search_model_versions := .ok [mv1, mv2, mv3]
    export_run := fun _ _ => .ok ()
    get_run := fun rid => .ok ⟨⟨"art-" ++ rid, "e1"⟩⟩
    get_experiment := fun _ => .ok ⟨"exp1"⟩
    get_registered_model := .ok "meta"
    mkdirs := .ok ()
    write_json_file := .ok () }

/-- A registry with no versions at all. -/
def envEmpty : Env := { envOk with search_model_versions := .ok [] }

/-- `get_run` raises `RESOURCE_DOES_NOT_EXIST: Run` for the middle
version's run. -/
def envRunMissing : Env :=
  { envOk with
    get_run := fun rid =>
      if rid = "r2" then
        .error (.restException "RESOURCE_DOES_NOT_EXIST: Run r2 not found")
      else .ok ⟨⟨"art-" ++ rid, "e1"⟩⟩ }

/-- `get_run` raises an exception that is not a `RestException` for the
first version's run; only two versions exist. -/
def envBoom : Env :=
  { envOk with
    search_model_versions := .ok [mv1, mv2]
    get_run := fun rid =>
      if rid = "r1" then .error (.otherException "boom")
      else .ok ⟨⟨"art-" ++ rid, "e1"⟩⟩ }

/-- `get_run` raises a `RestException` whose message is not a
`RESOURCE_DOES_NOT_EXIST: Run` error. -/
def envRestOther : Env :=
  { envOk with
    get_run := fun rid =>
      if rid = "r1" then .error (.restException "INTERNAL_ERROR: server exploded")
      else .ok ⟨⟨"art-" ++ rid, "e1"⟩⟩ }

/-- Two versions whose identifiers sort differently as strings and as
numbers. -/
def envSort : Env :=
  { envOk with
    search_model_versions := .ok [⟨"2", "None", "r2", "", []⟩, ⟨"10", "None", "r10", "", []⟩] }

/-- The two-version registry of the stage-filter scenario. -/
def envStagePair : Env := { envOk with search_model_versions := .ok [mv1, mv2] }

/-- Directory creation fails. -/
def envMkdirFail : Env := { envOk with mkdirs := .error (.otherException "permission denied") }

/-! ## Claims -/

/-- C1, counterexample: with two registry versions and `get_run` raising
a plain (non-`RestException`) exception for the first one, the loop
aborts at that version and `export_model` reports overall failure — so
it is not the case that every per-version exception is recovered and
that no version's failure aborts the export. -/
theorem C1_counterexample :
    export_model cfg0 envBoom "M" "/out" = (false, "M") ∧
    export_loop cfg0 envBoom "/out" initState [mv1, mv2] =
      .error (.otherException "boom") := by
  constructor
  · decide
  · decide

/-- C1 (amended): during the per-version loop, a `RestException` whose
message is not a `RESOURCE_DOES_NOT_EXIST: Run` error is logged with its
full diagnostic (traceback) and the iteration still succeeds with the
record kept in the manifest, so the loop continues; but an exception
that is not a `RestException` propagates out of the iteration and aborts
the export. -/
theorem C1_other_exceptions :
    (∀ (cfg : ExporterCfg) (env : Env) (d : String) (st : LoopState)
       (vr : ModelVersion) (msg : String),
       Selected cfg vr →
       tryExportVersion cfg env vr (opath_of d vr.run_id) =
         .error (.restException msg) →
       strInStr RESOURCE_MSG msg = false →
       process_version cfg env d st vr =
         .ok { st with
               manifest := st.manifest ++ [mkRecord vr]
               tracebacks := st.tracebacks ++ [msg] }) ∧
    (∀ (cfg : ExporterCfg) (env : Env) (d : String) (st : LoopState)
       (vr : ModelVersion) (msg : String),
       Selected cfg vr →
       tryExportVersion cfg env vr (opath_of d vr.run_id) =
         .error (.otherException msg) →
       process_version cfg env d st vr = .error (.otherException msg)) := by
  constructor
  · intro cfg env d st vr msg hsel hres hmsg
    rw [process_version_selected cfg env d st vr hsel]
    dsimp only
    rw [hres]
    simp [hmsg]
  · intro cfg env d st vr msg hsel hres
    rw [process_version_selected cfg env d st vr hsel]
    dsimp only
    rw [hres]

/-- C1 witness: both amended behaviours at concrete inputs. -/
theorem C1_other_exceptions_witness :
    process_version cfg0 envRestOther "/out" initState mv1 =
      .ok { initState with
            manifest := initState.manifest ++ [mkRecord mv1]
            tracebacks := initState.tracebacks ++ ["INTERNAL_ERROR: server exploded"] } ∧
    process_version cfg0 envBoom "/out" initState mv1 =
      .error (.otherException "boom") :=
  ⟨C1_other_exceptions.1 cfg0 envRestOther "/out" initState mv1
      "INTERNAL_ERROR: server exploded" (by decide) (by decide) (by decide),
   C1_other_exceptions.2 cfg0 envBoom "/out" initState mv1 "boom"
      (by decide) (by decide)⟩

/-- C2: a selected version whose run lookup raises a
`RESOURCE_DOES_NOT_EXIST: Run` error is recovered inline: the warning is
emitted, the manifest keeps the record, the output sequence is
unchanged, and the iteration succeeds; in the three-version scenario
with the error on the middle version, the manifest has 3 entries, the
output sequence has 2, and `export_model` still returns
`(true, model_name)`. -/
theorem C2_run_not_found_recovered :
    (∀ (cfg : ExporterCfg) (env : Env) (d : String) (st : LoopState)
       (vr : ModelVersion) (msg : String),
       Selected cfg vr →
       tryExportVersion cfg env vr (opath_of d vr.run_id) =
         .error (.restException msg) →
       strInStr RESOURCE_MSG msg = true →
       process_version cfg env d st vr =
         .ok { st with
               manifest := st.manifest ++ [mkRecord vr]
               warnings := st.warnings ++ [warn_msg vr.version msg] }) ∧
    Except.map (fun p => (p.1.length, p.2.latest_versions.length))
      (_export_model cfg0 envRunMissing "M" "/out") = .ok (3, 2) ∧
    export_model cfg0 envRunMissing "M" "/out" = (true, "M") := by
  refine ⟨?_, by decide, by decide⟩
  intro cfg env d st vr msg hsel hres hmsg
  rw [process_version_selected cfg env d st vr hsel]
  dsimp only
  rw [hres]
  simp [hmsg]

/-- C2 witness: the recovery behaviour at the concrete missing-run
environment. -/
theorem C2_run_not_found_recovered_witness :
    process_version cfg0 envRunMissing "/out" initState mv2 =
      .ok { initState with
            manifest := initState.manifest ++ [mkRecord mv2]
            warnings := initState.warnings ++
              [warn_msg "2" "RESOURCE_DOES_NOT_EXIST: Run r2 not found"] } :=
  C2_run_not_found_recovered.1 cfg0 envRunMissing "/out" initState mv2
    "RESOURCE_DOES_NOT_EXIST: Run r2 not found" (by decide) (by decide) (by decide)

/-- C3: construction fails with the configuration error exactly when the
normalized stage filter and the (defaulted) version filter are both
non-empty; with at most one of them non-empty it succeeds. -/
theorem C3_filters_mutually_exclusive :
    ∀ (stages : StagesArg) (versions : Option (List String)) (er : Bool),
      (∃ e, ModelExporter.init stages versions er = .error e) ↔
        (0 < (normalize_stages stages).length ∧
         0 < (versions.getD []).length) := by
  intro s v er
  unfold ModelExporter.init
  dsimp only
  split
  · rename_i h
    exact ⟨fun _ => h, fun _ => ⟨_, rfl⟩⟩
  · rename_i h
    constructor
    · rintro ⟨e, he⟩
      cases he
    · intro hc
      exact absurd hc h

/-- C3 witness: both filters non-empty at a concrete input yields the
configuration error. -/
theorem C3_filters_mutually_exclusive_witness :
    ∃ e, ModelExporter.init (.str "production") (some ["1"]) true = .error e :=
  (C3_filters_mutually_exclusive (.str "production") (some ["1"]) true).mpr
    (by decide)

/-- C4: under an active (non-empty) stage filter, a version whose
lower-cased stage is not in the filter never appears in the output
sequence, and `num_dst_versions` counts exactly the output sequence (so
such a version does not count toward it); in the two-version scenario
with stages filter `["production"]`, the output sequence is exactly
`["1"]` with `num_src_versions = 2` and `num_dst_versions = 1`. -/
theorem C4_stage_filter_excludes :
    (∀ (cfg : ExporterCfg) (env : Env) (n d : String)
       (m : List ModelVersionRecord) (doc : OutputDoc),
       0 < cfg.stages.length →
       _export_model cfg env n d = .ok (m, doc) →
       ∀ vr : ModelVersion, pyLower vr.current_stage ∉ cfg.stages →
         (∀ ev ∈ doc.latest_versions, ev.vr ≠ vr) ∧
         doc.export_info.num_dst_versions = doc.latest_versions.length) ∧
    Except.map (fun p =>
        (p.2.latest_versions.map fun ev => ev.vr.version,
         p.2.export_info.num_src_versions,
         p.2.export_info.num_dst_versions))
      (_export_model cfgProd envStagePair "M" "/out") = .ok (["1"], 2, 1) := by
  refine ⟨?_, by decide⟩
  intro cfg env n d m doc hs h vr hvr
  obtain ⟨versions, st, hsearch, hloop, hm, hlat, _, _, hsrc, hdst⟩ :=
    _export_model_ok cfg env n d m doc h
  refine ⟨?_, hdst⟩
  intro ev hev heq
  have hperm := List.perm_insertionSort versionLE st.output_versions
  have hev2 : ev ∈ st.output_versions := hperm.mem_iff.mp (hlat ▸ hev)
  obtain ⟨new, hout, _, hmemnew⟩ :=
    export_loop_output cfg env d versions initState st hloop
  have hnew : ev ∈ new := by
    rw [hout] at hev2
    simpa [initState] using hev2
  have hsel := (hmemnew ev hnew).2
  have hstage : pyLower ev.vr.current_stage ∈ cfg.stages := hsel.1 hs
  rw [heq] at hstage
  exact hvr hstage

/-- C4 witness: the general part applied at a concrete filtered-out
version (empty registry, so the conclusion is immediate to evaluate). -/
theorem C4_stage_filter_excludes_witness :
    (⟨"meta", [], ⟨1, 0, 0, 0⟩⟩ : OutputDoc).export_info.num_dst_versions =
      (⟨"meta", [], ⟨1, 0, 0, 0⟩⟩ : OutputDoc).latest_versions.length :=
  (C4_stage_filter_excludes.1 cfgProd envEmpty "M" "/out" []
    ⟨"meta", [], ⟨1, 0, 0, 0⟩⟩ (by decide) (by decide) mv2 (by decide)).2

/-- C5: on any successful export, `num_dst_versions ≤ num_src_versions`,
and every record of the output sequence carries a version identifier
occurring in the registry's response. -/
theorem C5_counters_and_membership :
    ∀ (cfg : ExporterCfg) (env : Env) (n d : String)
      (versions : List ModelVersion) (m : List ModelVersionRecord)
      (doc : OutputDoc),
      env.search_model_versions = .ok versions →
      _export_model cfg env n d = .ok (m, doc) →
      doc.export_info.num_dst_versions ≤ doc.export_info.num_src_versions ∧
      ∀ ev ∈ doc.latest_versions,
        ev.vr.version ∈ versions.map ModelVersion.version := by
  intro cfg env n d versions m doc hsearch h
  obtain ⟨versions0, st, hsearch0, hloop, hm, hlat, _, _, hsrc, hdst⟩ :=
    _export_model_ok cfg env n d m doc h
  have hv : versions0 = versions := Except.ok.inj (hsearch0.symm.trans hsearch)
  rw [hv] at hloop hsrc
  obtain ⟨new, hout, hlen, hmem⟩ :=
    export_loop_output cfg env d versions initState st hloop
  have hout2 : st.output_versions = new := by simpa [initState] using hout
  have hperm := List.perm_insertionSort versionLE st.output_versions
  constructor
  · rw [hdst, hsrc, hlat, hperm.length_eq, hout2]
    exact hlen
  · intro ev hev
    have hev2 : ev ∈ st.output_versions := hperm.mem_iff.mp (hlat ▸ hev)
    rw [hout2] at hev2
    exact List.mem_map.mpr ⟨ev.vr, (hmem ev hev2).1, rfl⟩

/-- C5 witness: the counter inequality at the concrete three-version
environment, where the export document is computed outright. -/
theorem C5_counters_and_membership_witness :
    (⟨"meta", [], ⟨0, 0, 0, 0⟩⟩ : OutputDoc).export_info.num_dst_versions ≤
      (⟨"meta", [], ⟨0, 0, 0, 0⟩⟩ : OutputDoc).export_info.num_src_versions :=
  (C5_counters_and_membership cfg0 envEmpty "M" "/out" [] []
    ⟨"meta", [], ⟨0, 0, 0, 0⟩⟩ (by decide) (by decide)).1

/-- C6: the output sequence of any successful export is sorted ascending
by version identifier under the string comparison (`versionLE` is the
code-point lexicographic order on the `version` field), and the
comparison is lexicographic rather than numeric: the registry response
`["2", "10"]` exports as `["10", "2"]`. -/
theorem C6_output_sorted_lexicographically :
    (∀ (cfg : ExporterCfg) (env : Env) (n d : String)
       (m : List ModelVersionRecord) (doc : OutputDoc),
       _export_model cfg env n d = .ok (m, doc) →
       doc.latest_versions.Pairwise versionLE) ∧
    Except.map (fun p => p.2.latest_versions.map fun ev => ev.vr.version)
      (_export_model cfg0 envSort "M" "/out") = .ok ["10", "2"] ∧
    pyStrLE "10" "2" = true := by
  refine ⟨?_, by decide, by decide⟩
  intro cfg env n d m doc h
  obtain ⟨versions, st, _, _, _, hlat, _⟩ :=
    _export_model_ok cfg env n d m doc h
  rw [hlat]
  exact List.sorted_insertionSort versionLE st.output_versions

/-- C6 witness: sortedness of a concretely computed output sequence. -/
theorem C6_output_sorted_lexicographically_witness :
    List.Pairwise versionLE
      (⟨"meta", [], ⟨0, 0, 0, 0⟩⟩ : OutputDoc).latest_versions :=
  C6_output_sorted_lexicographically.1 cfg0 envEmpty "M" "/out" []
    ⟨"meta", [], ⟨0, 0, 0, 0⟩⟩ (by decide)

/-- C7: `export_model` always returns the model name as second
component; it returns `(true, model_name)` exactly on an exception-free
`_export_model`, and `(false, model_name)` whenever any exception
escapes `_export_model` — including the concrete case where creating the
output directory fails. -/
theorem C7_outer_wrapper :
    (∀ (cfg : ExporterCfg) (env : Env) (n d : String),
       (export_model cfg env n d).2 = n ∧
       (∀ r, _export_model cfg env n d = .ok r →
         export_model cfg env n d = (true, n)) ∧
       (∀ e, _export_model cfg env n d = .error e →
         export_model cfg env n d = (false, n))) ∧
    export_model cfg0 envMkdirFail "M" "/out" = (false, "M") := by
  refine ⟨?_, by decide⟩
  intro cfg env n d
  refine ⟨?_, ?_, ?_⟩
  · unfold export_model
    split <;> rfl
  · intro r hr
    unfold export_model
    rw [hr]
  · intro e he
    unfold export_model
    rw [he]

/-- C7 witness: the success direction at a concrete exception-free
environment. -/
theorem C7_outer_wrapper_witness :
    export_model cfg0 envEmpty "M" "/out" = (true, "M") :=
  (C7_outer_wrapper.1 cfg0 envEmpty "M" "/out").2.1
    ([], ⟨"meta", [], ⟨0, 0, 0, 0⟩⟩) (by decide)

/-- C8, counterexample: with an output directory beginning with `dbfs:`
but a run identifier beginning with `/`, `os.path.join` discards the
output directory entirely, so the computed per-run path contains no
`dbfs:` and is not rewritten to begin with `/dbfs` — the claim's
universal quantification over run identifiers fails. -/
theorem C8_counterexample :
    ("dbfs:".data <+: "dbfs:/mnt/e".data) ∧
    opath_of "dbfs:/mnt/e" "/r1" = "/r1" ∧
    ¬ ("/dbfs".data <+: (opath_of "dbfs:/mnt/e" "/r1").data) := by
  refine ⟨by decide, by decide, by decide⟩

/-- C8 (amended): for every output directory beginning with `dbfs:` and
every run identifier that does not itself begin with `/` (so that
`os.path.join` appends it rather than discarding the directory), the
computed per-run output path begins with `/dbfs`. -/
theorem C8_dbfs_rewrite :
    ∀ (output_dir run_id : String),
      ("dbfs:".data <+: output_dir.data) →
      run_id.data.head? ≠ some '/' →
      ("/dbfs".data <+: (opath_of output_dir run_id).data) := by
  intro d r hd hr
  obtain ⟨u, hu⟩ := hd
  have hd5 : "dbfs:".data = DBFS_PAT := rfl
  unfold opath_of pyJoin
  rw [if_neg hr]
  by_cases hc : d.data = [] ∨ d.data.getLast? = some '/'
  · rw [if_pos hc]
    show "/dbfs".data <+: replaceDbfs (d.data ++ r.data)
    have h2 : d.data ++ r.data = DBFS_PAT ++ (u ++ r.data) := by
      rw [← hu, hd5, List.append_assoc]
    rw [h2, replaceDbfs_head]
    exact ⟨replaceDbfs (u ++ r.data), rfl⟩
  · rw [if_neg hc]
    show "/dbfs".data <+: replaceDbfs ((d.data ++ ['/']) ++ r.data)
    have h2 : (d.data ++ ['/']) ++ r.data = DBFS_PAT ++ (u ++ ('/' :: r.data)) := by
      rw [← hu, hd5]
      simp
    rw [h2, replaceDbfs_head]
    exact ⟨replaceDbfs (u ++ ('/' :: r.data)), rfl⟩

/-- C8 witness: the rewrite at a concrete `dbfs:` output directory and a
relative run identifier. -/
theorem C8_dbfs_rewrite_witness :
    ("/dbfs".data <+: (opath_of "dbfs:/mnt/e" "r1").data) :=
  C8_dbfs_rewrite "dbfs:/mnt/e" "r1" (by decide) (by decide)

/-- C9: a `stages` argument that is the empty string normalizes to the
non-empty filter `[""]`; it therefore conflicts with any non-empty
version filter at construction time, and as an active filter it skips
every version whose lower-cased stage is not the empty string. -/
theorem C9_empty_string_stage_filter :
    normalize_stages (.str "") = [""] ∧
    (∀ (vs : List String) (er : Bool), 0 < vs.length →
      ∃ e, ModelExporter.init (.str "") (some vs) er = .error e) ∧
    (∀ (cfg : ExporterCfg) (env : Env) (d : String) (st : LoopState)
       (vr : ModelVersion),
       cfg.stages = [""] → pyLower vr.current_stage ≠ "" →
       process_version cfg env d st vr = .ok st) := by
  refine ⟨by decide, ?_, ?_⟩
  · intro vs er hvs
    exact (C3_filters_mutually_exclusive (.str "") (some vs) er).mpr
      ⟨by decide, hvs⟩
  · intro cfg env d st vr hst hne
    refine process_version_skip_stage cfg env d st vr ?_ ?_
    · rw [hst]
      decide
    · rw [hst]
      simpa using hne

/-- C9 witness: the conflict and the skip at concrete inputs. -/
theorem C9_empty_string_stage_filter_witness :
    (∃ e, ModelExporter.init (.str "") (some ["1"]) true = .error e) ∧
    process_version ⟨[""], [], true⟩ envOk "/out" initState mv1 =
      .ok initState :=
  ⟨C9_empty_string_stage_filter.2.1 ["1"] true (by decide),
   C9_empty_string_stage_filter.2.2 ⟨[""], [], true⟩ envOk "/out" initState
     mv1 rfl (by decide)⟩

/-- C10: the `replace` call rewrites every occurrence of `dbfs:`
(scanning left to right, each occurrence replaced where it stands, not
only a leading scheme prefix), and in particular a `dbfs:` contributed
by the run identifier is rewritten even though the output directory does
not start with `dbfs:`. -/
theorem C10_replace_all_occurrences :
    (∀ x y : List Char, ¬ DBFS_PAT <:+: x →
      replaceDbfs (x ++ DBFS_PAT ++ y) = x ++ DBFS_REP ++ replaceDbfs y) ∧
    opath_of "/out" "xdbfs:y" = "/out/x/dbfsy" :=
  ⟨replaceDbfs_mid, by decide⟩

/-- C10 witness: a mid-string occurrence replaced at concrete input. -/
theorem C10_replace_all_occurrences_witness :
    replaceDbfs ("A/".data ++ DBFS_PAT ++ "x".data) =
      "A/".data ++ DBFS_REP ++ replaceDbfs "x".data :=
  C10_replace_all_occurrences.1 "A/".data "x".data (by decide)

end MlflowExportImport
